/-
Verification of the gigmile payment-service consistency core.

The Go sources are shallowly embedded:
* `domain.Customer` and its operations (`NewCustomer`, `ApplyPayment`,
  `GetPaymentProgress`, `IsFullyPaid`) become pure Lean functions; in-place
  mutation becomes functional update, Go `error` returns become `Except`.
* Go `int64` values are modelled as `Int`; the two arithmetic operations of
  `ApplyPayment` that Go performs on `int64` go through `wrap64`, the
  wrap-around of two-complement int64, so overflow behaves as in the source.
* `time.Time` values are modelled as abstract `Nat` timestamps.
* The MySQL `customers` table is an association list of rows and the GORM
  conditional UPDATE of `GORMCustomerRepository.Save` is transcribed as a
  row-wise guarded update; the payments dedup state (redis `payment:<ref>`
  keys plus the MySQL `payments` table with its unique index) is `PayStore`.
* `PaymentService.ProcessPayment` is transcribed over the repository
  interfaces of `internal/domain` (a record of state transformers over an
  abstract store state), then instantiated with the store model.  A ghost
  trace of store operations makes frame conditions expressible.
* The float64 arithmetic of `PaymentRequest.GetAmountInKobo` is modelled
  exactly: binary64 values are the rationals with a 53-bit mantissa, and
  each Go float operation is "exact result, rounded to nearest, ties to
  even".
-/
import Mathlib

namespace Gigmile

instance {ε α : Type} [DecidableEq ε] [DecidableEq α] : DecidableEq (Except ε α) :=
  fun x y =>
    match x, y with
    | .ok a, .ok b =>
      if h : a = b then isTrue (by rw [h]) else isFalse (by intro he; cases he; exact h rfl)
    | .error e, .error f =>
      if h : e = f then isTrue (by rw [h]) else isFalse (by intro he; cases he; exact h rfl)
    | .ok _, .error _ => isFalse (by intro he; cases he)
    | .error _, .ok _ => isFalse (by intro he; cases he)

/-- Customer lifecycle status, `domain.CustomerStatus`:
ACTIVE, COMPLETED or DEFAULTED. -/
inductive CustomerStatus where
  | active
  | completed
  | defaulted
deriving DecidableEq, Repr

/-- The error values of `internal/domain` (`ErrInvalidCustomerID`,
`ErrInvalidAmount`, `ErrInvalidTransactionRef`, `ErrDuplicateTransaction`,
`ErrInsufficientBalance`, `ErrAssetAlreadyOwned`, `ErrOptimisticLock`)
together with the repository errors surfaced to the service
(`ErrCustomerNotFound`) and the two `errors.New` validation errors of
`NewCustomer`. -/
inductive DomainErr where
  | invalidCustomerID
  | invalidAmount
  | invalidTransactionRef
  | duplicateTransaction
  | insufficientBalance
  | assetAlreadyOwned
  | assetValueNotPositive
  | termNotPositive
  | optimisticLock
  | customerNotFound
deriving DecidableEq, Repr

/-- Wrap-around of two-complement Go `int64` arithmetic: the representative
of `x` modulo `2 ^ 64` lying in `[-2 ^ 63, 2 ^ 63)`. -/
def wrap64 (x : Int) : Int := (x + 2 ^ 63) % 2 ^ 64 - 2 ^ 63

/-- The `domain.Customer` aggregate root.  Monetary fields are Go `int64`
kobo amounts; `LastPaymentDate *time.Time` becomes an optional timestamp. -/
structure Customer where
  id : String
  assetValue : Int
  repaymentTermWeeks : Int
  outstandingBalance : Int
  totalPaid : Int
  deploymentDate : Nat
  lastPaymentDate : Option Nat
  status : CustomerStatus
  version : Int
deriving DecidableEq, Repr

/-- Model of `domain.NewCustomer`: validates its inputs and returns a fresh ACTIVE
customer at version 1 whose outstanding balance is the full asset value. -/
def newCustomer (id : String) (assetValue : Int) (termWeeks : Int)
    (deploymentDate : Nat) : Except DomainErr Customer :=
  if id = "" then .error .invalidCustomerID
  else if assetValue ≤ 0 then .error .assetValueNotPositive
  else if termWeeks ≤ 0 then .error .termNotPositive
  else .ok
    { id := id
      assetValue := assetValue
      repaymentTermWeeks := termWeeks
      outstandingBalance := assetValue
      totalPaid := 0
      deploymentDate := deploymentDate
      lastPaymentDate := none
      status := .active
      version := 1 }

/-- Model of `Customer.ApplyPayment`: rejects non-positive amounts and COMPLETED
customers, otherwise subtracts the amount from the outstanding balance with
a clamp to zero, adds it (unclamped) to `TotalPaid`, stamps the payment
date, and marks the customer COMPLETED when the new balance is zero.  The
Go method mutates the receiver and returns `error`; here the updated
customer is returned in `Except`.  Version advancement is left to the
repository, as in the source. -/
def applyPayment (c : Customer) (amount : Int) (paymentDate : Nat) :
    Except DomainErr Customer :=
  if amount ≤ 0 then .error .invalidAmount
  else if c.status = .completed then .error .assetAlreadyOwned
  else
    let raw := wrap64 (c.outstandingBalance - amount)
    let newBalance := if raw < 0 then 0 else raw
    let c1 : Customer :=
      { c with
        outstandingBalance := newBalance
        totalPaid := wrap64 (c.totalPaid + amount)
        lastPaymentDate := some paymentDate }
    if newBalance = 0 then .ok { c1 with status := .completed } else .ok c1

/-- Model of `Customer.GetPaymentProgress`: percentage of the asset paid, with a
guard returning 0 when the asset value is 0.  The Go method computes in
float64; the model uses exact rationals (the zero-divisor guard, which is
what the claims concern, is unaffected). -/
def getPaymentProgress (c : Customer) : ℚ :=
  if c.assetValue = 0 then 0
  else (c.totalPaid : ℚ) / (c.assetValue : ℚ) * 100

/-- Model of `Customer.IsFullyPaid`. -/
def isFullyPaid (c : Customer) : Bool :=
  c.outstandingBalance == 0 || c.status == CustomerStatus.completed

/-- The customer state after one `ApplyPayment` call under the Go in-place
semantics: the updated customer on success, the unchanged receiver when the
method returns an error (the Go method returns before any assignment on
every error path). -/
def stepCustomer (c : Customer) (amount : Int) (paymentDate : Nat) : Customer :=
  match applyPayment c amount paymentDate with
  | .ok c1 => c1
  | .error _ => c

/-- The customer state after a sequence of `ApplyPayment` calls. -/
def applyPayments (c : Customer) : List (Int × Nat) → Customer
  | [] => c
  | (a, d) :: rest => applyPayments (stepCustomer c a d) rest

/-- Sum of the positive parts of the amounts of a payment sequence: an upper
bound on how much `TotalPaid` can grow over the sequence. -/
def sumPos : List (Int × Nat) → Int
  | [] => 0
  | (a, _) :: rest => max a 0 + sumPos rest

/-- The aggregate invariants of the data model of the spec, together with the
`int64`-representability bounds under which the Go arithmetic does not
overflow: the outstanding balance is a non-negative in-range amount, the
total paid is non-negative, and a zero balance forces COMPLETED status. -/
def CustomerInv (c : Customer) : Prop :=
  0 ≤ c.outstandingBalance ∧ c.outstandingBalance < 2 ^ 63 ∧
  0 ≤ c.totalPaid ∧ (c.outstandingBalance = 0 → c.status = .completed)

instance (c : Customer) : Decidable (CustomerInv c) := by
  unfold CustomerInv; infer_instance

/-- Payment status, `domain.PaymentStatus`. -/
inductive PaymentStatus where
  | pending
  | complete
  | failed
  | duplicate
deriving DecidableEq, Repr

/-- The `domain.Payment` record.  The Go zero `time.Time` of an unstamped
`ProcessedAt` is modelled as `none`. -/
structure Payment where
  id : String
  customerId : String
  amount : Int
  transactionReference : String
  transactionDate : Nat
  status : PaymentStatus
  processedAt : Option Nat
  createdAt : Nat
deriving DecidableEq, Repr

/-- Model of `domain.NewPayment`: validates customer id, amount and reference, and
builds the record with a blank id and `CreatedAt := now` (`time.Now()` is
passed in explicitly). -/
def newPayment (customerId : String) (amount : Int) (transactionRef : String)
    (transactionDate : Nat) (status : PaymentStatus) (now : Nat) :
    Except DomainErr Payment :=
  if customerId = "" then .error .invalidCustomerID
  else if amount ≤ 0 then .error .invalidAmount
  else if transactionRef = "" then .error .invalidTransactionRef
  else .ok
    { id := ""
      customerId := customerId
      amount := amount
      transactionReference := transactionRef
      transactionDate := transactionDate
      status := status
      processedAt := none
      createdAt := now }

/-- The MySQL `customers` table: rows keyed by the primary-key column `id`
(`persistence.CustomerModel` carries the same columns as the domain entity,
so rows are modelled as `Customer` values; the `created_at`/`updated_at`
bookkeeping columns are elided). -/
abbrev CustomerTable := List (String × Customer)

/-- Model of `SELECT ... WHERE id = ?` on the customers table. -/
def findRow (t : CustomerTable) (id : String) : Option Customer :=
  (t.find? (fun p => p.1 == id)).map (fun p => p.2)

/-- The `WHERE id = ? AND version = ?` clause of the conditional UPDATE in
`GORMCustomerRepository.Save`. -/
def rowMatches (p : String × Customer) (id : String) (version : Int) : Bool :=
  p.1 == id && p.2.version == version

/-- The column assignments of that UPDATE: balance, total paid, last payment
date and status from the saved customer, `version = version + 1` computed by
the store from the stored row. -/
def applyUpdate (row : Customer) (c : Customer) : Customer :=
  { row with
    outstandingBalance := c.outstandingBalance
    totalPaid := c.totalPaid
    lastPaymentDate := c.lastPaymentDate
    status := c.status
    version := row.version + 1 }

/-- Model of `GORMCustomerRepository.Save` (`customer_repository.go` lines 61-110):
a conditional UPDATE matching id and expected version; zero rows affected
yields `ErrOptimisticLock` with the table untouched, otherwise the matching
row is updated with the version incremented by the store and the in-memory
version of the in-memory customer is bumped to match.  The cache invalidation before and
repopulation after the write touch only the redis tier and are elided. -/
def saveCustomer (t : CustomerTable) (c : Customer) :
    Except DomainErr Customer × CustomerTable :=
  if t.countP (fun p => rowMatches p c.id c.version) = 0 then
    (.error .optimisticLock, t)
  else
    (.ok { c with version := c.version + 1 },
     t.map (fun p => if rowMatches p c.id c.version then (p.1, applyUpdate p.2 c) else p))

/-- Model of `GORMCustomerRepository.FindByID` reduced to its durable read: a missing
row is `ErrCustomerNotFound`.  The redis read-through cache in front of it
(5-minute TTL, populated only with post-write authoritative snapshots) is
coherent with the table in any sequential execution and is elided. -/
def findCustomer (t : CustomerTable) (id : String) : Except DomainErr Customer :=
  match findRow t id with
  | none => .error .customerNotFound
  | some c => .ok c

/-- The dedup state of the payment repositories: `fast` holds the redis
`payment:<ref>` keys with their cached records, `durable` the MySQL
`payments` table guarded by the unique index on `transaction_reference`. -/
structure PayStore where
  fast : List (String × Payment)
  durable : List Payment
deriving DecidableEq, Repr

/-- Existence of a `payment:<ref>` key in the redis tier
(`RedisPaymentRepository.ExistsByTransactionReference`). -/
def fastHasRef (fast : List (String × Payment)) (ref : String) : Bool :=
  (fast.find? (fun p => p.1 == ref)).isSome

/-- Model of `RedisPaymentRepository.Save` (`models.go` lines 133-156): `SetNX` on
`payment:<ref>` — an atomic insert-if-absent that returns
`ErrDuplicateTransaction` when the key already exists.  The trailing
`RPush` onto the per-customer payment list is elided. -/
def redisSavePayment (fast : List (String × Payment)) (p : Payment) :
    Except DomainErr Unit × List (String × Payment) :=
  if fastHasRef fast p.transactionReference then
    (.error .duplicateTransaction, fast)
  else
    (.ok (), (p.transactionReference, p) :: fast)

/-- Existence of a row with the given reference in the `payments` table. -/
def durableHasRef (durable : List Payment) (ref : String) : Bool :=
  durable.any (fun q => q.transactionReference == ref)

/-- Model of `GORMPaymentRepository.Save` (`part_007` lines 31-61), the Dedup Gate
save: a redis existence check returning `ErrDuplicateTransaction` on a hit,
then an INSERT into `payments` where a duplicate-key violation of the
unique reference index also yields `ErrDuplicateTransaction`.  The uuid
generation for a blank id and the fall-through on a redis outage are
elided. -/
def gormSavePayment (st : PayStore) (p : Payment) :
    Except DomainErr Unit × PayStore :=
  if fastHasRef st.fast p.transactionReference then
    (.error .duplicateTransaction, st)
  else if durableHasRef st.durable p.transactionReference then
    (.error .duplicateTransaction, st)
  else
    (.ok (), { st with durable := st.durable ++ [p] })

/-- Model of `GORMPaymentRepository.ExistsByTransactionReference`: redis hit, or
fall back to a MySQL count (the asynchronous redis backfill on a durable
hit is elided). -/
def gormExistsByRef (st : PayStore) (ref : String) : Bool :=
  fastHasRef st.fast ref || durableHasRef st.durable ref

/-- Modelled from the spec (§4.2, Dedup Gate `Save`), for comparison with
`gormSavePayment`: "attempts an atomic insert if absent on the fast tier
keyed by reference; a losing attempt returns DuplicateTransaction
immediately.  On a fast-tier win, attempts a durable insert guarded by a
uniqueness constraint on reference; a uniqueness violation there also
yields DuplicateTransaction." -/
def specGateSave (st : PayStore) (p : Payment) :
    Except DomainErr Unit × PayStore :=
  match redisSavePayment st.fast p with
  | (.error e, fast1) => (.error e, { st with fast := fast1 })
  | (.ok _, fast1) =>
    if durableHasRef st.durable p.transactionReference then
      (.error .duplicateTransaction, { st with fast := fast1 })
    else
      (.ok (), { fast := fast1, durable := st.durable ++ [p] })

/-- Model of `service.ProcessPaymentRequest`. -/
structure ProcessPaymentRequest where
  customerID : String
  paymentStatus : String
  transactionAmount : Int
  transactionDate : Nat
  transactionReference : String
deriving DecidableEq, Repr

/-- Model of `service.ProcessPaymentResponse`.  Fields not assigned by a given code
path keep their Go zero values, as in the source. -/
structure ProcessPaymentResponse where
  success : Bool
  message : String
  customerID : String := ""
  outstandingBalance : Int := 0
  totalPaid : Int := 0
  paymentProgress : ℚ := 0
  isFullyPaid : Bool := false
deriving DecidableEq, Repr

/-- The error results of `PaymentService.ProcessPayment`: one constructor
per `fmt.Errorf` wrapping site in `part_003`, carrying the wrapped cause. -/
inductive ProcErr where
  | existsCheckFailed (e : DomainErr)
  | getCustomerForDuplicateFailed (e : DomainErr)
  | getCustomerFailed (e : DomainErr)
  | applyPaymentFailed (e : DomainErr)
  | getCustomerOnRetryFailed (e : DomainErr)
  | applyPaymentOnRetryFailed (e : DomainErr)
  | saveCustomerFailed (e : DomainErr)
  | invalidPaymentData (e : DomainErr)
  | savePaymentFailed (e : DomainErr)
deriving DecidableEq, Repr

/-- Model of `domain.CustomerRepository` as used by the service, over an abstract
store state `S`.  In Go, `Save` mutates the version of the passed customer on
success; here the updated customer is returned. -/
structure CustomerRepo (S : Type) where
  findByID : S → String → Except DomainErr Customer × S
  save : S → Customer → Except DomainErr Customer × S

/-- Model of `domain.PaymentRepository` as used by the service. -/
structure PaymentRepo (S : Type) where
  existsByRef : S → String → Except DomainErr Bool × S
  save : S → Payment → Except DomainErr Unit × S

/-- The payload of the `PaymentProcessed` event built by
`publishPaymentProcessedEvent` (the `ProcessedAt := time.Now()` stamp is
elided). -/
structure PaymentProcessedPayload where
  customerID : String
  transactionReference : String
  amount : Int
  outstandingBalance : Int
  totalPaid : Int
  paymentProgress : ℚ
  isFullyPaid : Bool
deriving DecidableEq, Repr

/-- Model of `domain.EventPublisher`: publication is fire-and-forget, so only its
effect on the store state is modelled, never a failure fed back to the
caller. -/
structure EventSink (S : Type) where
  publish : S → PaymentProcessedPayload → S

/-- The collaborators injected into `PaymentService` (`eventPublisher` may
be nil, hence `Option`). -/
structure Env (S : Type) where
  customerRepo : CustomerRepo S
  paymentRepo : PaymentRepo S
  publisher : Option (EventSink S)

/-- The success response body built from a customer (`part_003` lines
85-93, 169-177 and 201-209, which differ only in the message). -/
def customerResponse (message : String) (c : Customer) : ProcessPaymentResponse :=
  { success := true
    message := message
    customerID := c.id
    outstandingBalance := c.outstandingBalance
    totalPaid := c.totalPaid
    paymentProgress := getPaymentProgress c
    isFullyPaid := isFullyPaid c }

/-- The event payload built by `publishPaymentProcessedEvent`. -/
def processedPayload (c : Customer) (req : ProcessPaymentRequest) :
    PaymentProcessedPayload :=
  { customerID := c.id
    transactionReference := req.transactionReference
    amount := req.transactionAmount
    outstandingBalance := c.outstandingBalance
    totalPaid := c.totalPaid
    paymentProgress := getPaymentProgress c
    isFullyPaid := isFullyPaid c }

/-- Model of `PaymentService.ProcessPayment` after the customer write has committed
(`part_003` lines 144-209): build the payment record, record it via the
save of the Dedup Gate — where `ErrDuplicateTransaction` after the committed
balance write is treated as success — then publish the event (spawned
fire-and-forget in Go) and return the success response. -/
def finishPayment {S : Type} (E : Env S) (s : S) (c : Customer)
    (req : ProcessPaymentRequest) (now : Nat) :
    Except ProcErr ProcessPaymentResponse × S :=
  match newPayment req.customerID req.transactionAmount req.transactionReference
      req.transactionDate .complete now with
  | .error e => (.error (.invalidPaymentData e), s)
  | .ok p =>
    match E.paymentRepo.save s p with
    | (.error .duplicateTransaction, s1) =>
      (.ok (customerResponse "payment processed successfully" c), s1)
    | (.error e, s1) => (.error (.savePaymentFailed e), s1)
    | (.ok _, s1) =>
      let s2 := match E.publisher with
        | none => s1
        | some sink => sink.publish s1 (processedPayload c req)
      (.ok (customerResponse "payment processed successfully" c), s2)

/-- Model of `PaymentService.ProcessPayment` (`part_003` lines 52-210): status
filter, dedup existence check with the idempotent duplicate-success path,
aggregate fetch, in-memory transform, optimistic persist with exactly one
retry on `ErrOptimisticLock` (refetch, reapply, persist again — any error
from the second attempt, a second conflict included, is surfaced as the
save failure), then `finishPayment`. -/
def processPayment {S : Type} (E : Env S) (s : S) (req : ProcessPaymentRequest)
    (now : Nat) : Except ProcErr ProcessPaymentResponse × S :=
  if req.paymentStatus ≠ "COMPLETE" then
    (.ok { success := false
           message := "payment status is " ++ req.paymentStatus ++ ", not COMPLETE" }, s)
  else
    match E.paymentRepo.existsByRef s req.transactionReference with
    | (.error e, s1) => (.error (.existsCheckFailed e), s1)
    | (.ok true, s1) =>
      match E.customerRepo.findByID s1 req.customerID with
      | (.error e, s2) => (.error (.getCustomerForDuplicateFailed e), s2)
      | (.ok c, s2) =>
        (.ok (customerResponse "duplicate transaction - already processed" c), s2)
    | (.ok false, s1) =>
      match E.customerRepo.findByID s1 req.customerID with
      | (.error e, s2) => (.error (.getCustomerFailed e), s2)
      | (.ok c0, s2) =>
        match applyPayment c0 req.transactionAmount req.transactionDate with
        | .error e => (.error (.applyPaymentFailed e), s2)
        | .ok c1 =>
          match E.customerRepo.save s2 c1 with
          | (.error .optimisticLock, s3) =>
            match E.customerRepo.findByID s3 req.customerID with
            | (.error e, s4) => (.error (.getCustomerOnRetryFailed e), s4)
            | (.ok c2, s4) =>
              match applyPayment c2 req.transactionAmount req.transactionDate with
              | .error e => (.error (.applyPaymentOnRetryFailed e), s4)
              | .ok c3 =>
                match E.customerRepo.save s4 c3 with
                | (.error e, s5) => (.error (.saveCustomerFailed e), s5)
                | (.ok c4, s5) => finishPayment E s5 c4 req now
          | (.error e, s3) => (.error (.saveCustomerFailed e), s3)
          | (.ok c2, s3) => finishPayment E s3 c2 req now

/-- Ghost record of one store operation, used to state frame conditions
("no store operation at all", "no event appended"). -/
inductive Op where
  | opExists (ref : String) (result : Bool)
  | opFindCustomer (id : String) (found : Bool)
  | opSaveCustomer (id : String) (committed : Bool)
  | opSavePayment (ref : String) (committed : Bool)
  | opPublish (customerID : String)
deriving DecidableEq, Repr

/-- The two-tier storage topology as one state: the customers table, the
payment dedup state, and a ghost trace to which every modelled store
operation appends. -/
structure World where
  customers : CustomerTable
  payStore : PayStore
  trace : List Op
deriving DecidableEq, Repr

/-- Model of `GORMCustomerRepository` acting on the world. -/
def worldCustomerRepo : CustomerRepo World where
  findByID := fun w id =>
    match findCustomer w.customers id with
    | .error e => (.error e, { w with trace := w.trace ++ [.opFindCustomer id false] })
    | .ok c => (.ok c, { w with trace := w.trace ++ [.opFindCustomer id true] })
  save := fun w c =>
    match saveCustomer w.customers c with
    | (.error e, t1) =>
      (.error e, { w with customers := t1, trace := w.trace ++ [.opSaveCustomer c.id false] })
    | (.ok c1, t1) =>
      (.ok c1, { w with customers := t1, trace := w.trace ++ [.opSaveCustomer c.id true] })

/-- Model of `GORMPaymentRepository` acting on the world. -/
def worldPaymentRepo : PaymentRepo World where
  existsByRef := fun w ref =>
    (.ok (gormExistsByRef w.payStore ref),
     { w with trace := w.trace ++ [.opExists ref (gormExistsByRef w.payStore ref)] })
  save := fun w p =>
    match gormSavePayment w.payStore p with
    | (.error e, st1) =>
      (.error e,
       { w with payStore := st1
                trace := w.trace ++ [.opSavePayment p.transactionReference false] })
    | (.ok _, st1) =>
      (.ok (),
       { w with payStore := st1
                trace := w.trace ++ [.opSavePayment p.transactionReference true] })

/-- The event publisher acting on the world: appending the publish to the
ghost trace records that an event was spawned. -/
def worldSink : EventSink World where
  publish := fun w payload => { w with trace := w.trace ++ [.opPublish payload.customerID] }

/-- The production wiring of `PaymentService` over the world. -/
def worldEnv : Env World :=
  { customerRepo := worldCustomerRepo
    paymentRepo := worldPaymentRepo
    publisher := some worldSink }

/-- Binary normalization of a positive rational `n / d`: repeatedly halve
or double until the value lies in `[1, 2)`, returning the scaled pair and
the collected binary exponent, so `n / d = (n1 / d1) * 2 ^ e` with
`1 ≤ n1 / d1 < 2`.  The fuel bound far exceeds the binary64 exponent
range. -/
def norm2 : Nat → Nat → Nat → Int → Nat × Nat × Int
  | 0, n, d, e => (n, d, e)
  | fuel + 1, n, d, e =>
    if 2 * d ≤ n then norm2 fuel n (2 * d) (e + 1)
    else if n < d then norm2 fuel (2 * n) d (e - 1)
    else (n, d, e)

/-- The binary64 (Go float64) value nearest to the non-negative rational
`n / d`, as an exact rational pair: the significand is rounded half-to-even
to 53 bits (the IEEE-754 default rounding used by Go float64 arithmetic
and by `strconv.ParseFloat`).  Subnormals and overflow lie outside the
range this model is applied to. -/
def flRound (n d : Nat) : Nat × Nat :=
  if n = 0 then (0, 1)
  else
    match norm2 1200 n d 0 with
    | (n1, d1, e) =>
      let scaled := n1 * 2 ^ 52
      let m0 := scaled / d1
      let r := scaled % d1
      let m := if 2 * r < d1 then m0
               else if d1 < 2 * r then m0 + 1
               else if m0 % 2 = 0 then m0 else m0 + 1
      if 52 ≤ e then (m * 2 ^ (e - 52).toNat, 1)
      else (m, 2 ^ (52 - e).toNat)

/-- Model of `strconv.ParseFloat(s, 64)` on an accepted non-negative decimal string:
the exact decimal value `n / d` of the string, correctly rounded to the nearest
binary64. -/
def parseFloat64 (n d : Nat) : Nat × Nat := flRound n d

/-- Go float64 multiplication: exact product, correctly rounded. -/
def mulFloat64 (x y : Nat × Nat) : Nat × Nat := flRound (x.1 * y.1) (x.2 * y.2)

/-- Model of `PaymentRequest.GetAmountInKobo` (`part_008` lines 45-51) on an
accepted non-negative decimal amount string with exact decimal value
`n / d`: `int64(strconv.ParseFloat(s, 64) * 100)`, the final conversion
truncating toward zero.  The float64 literal `100` is exactly
representable as the pair `(100, 1)`. -/
def getAmountInKobo (n d : Nat) : Nat :=
  let y := mulFloat64 (parseFloat64 n d) (100, 1)
  y.1 / y.2

/-- A seeded customer (`scripts` seeding: asset 100,000,000 kobo, 50-week
term, ACTIVE at version 1). -/
def baseCustomer : Customer :=
  { id := "GIG00001"
    assetValue := 100000000
    repaymentTermWeeks := 50
    outstandingBalance := 100000000
    totalPaid := 0
    deploymentDate := 0
    lastPaymentDate := none
    status := .active
    version := 1 }

/-- The seeded customer after one 10,000-kobo payment, at version 5. -/
def paidCustomer : Customer :=
  { baseCustomer with
    outstandingBalance := 99990000
    totalPaid := 10000
    lastPaymentDate := some 1
    version := 5 }

/-- A fully paid customer. -/
def doneCustomer : Customer :=
  { baseCustomer with
    outstandingBalance := 0
    totalPaid := 100000000
    status := .completed }

/-- A customer row with a zero asset value. -/
def zeroAssetCustomer : Customer := { baseCustomer with assetValue := 0 }

/-- A one-row customers table holding `paidCustomer`. -/
def tableW : CustomerTable := [("GIG00001", paidCustomer)]

/-- The in-memory customer to be saved: `paidCustomer` after a further
10,000-kobo payment, still carrying the read version 5. -/
def saveReqCustomer : Customer :=
  { paidCustomer with
    outstandingBalance := 99980000
    totalPaid := 20000
    lastPaymentDate := some 7 }

/-- The same save attempted with a stale expected version. -/
def staleCustomer : Customer := { saveReqCustomer with version := 4 }

/-- An empty dedup state. -/
def emptyPayStore : PayStore := { fast := [], durable := [] }

/-- A payment record with a reference unknown to the dedup state. -/
def freshPayment : Payment :=
  { id := "p1"
    customerId := "GIG00001"
    amount := 10000
    transactionReference := "VPAY-NEW"
    transactionDate := 2
    status := .complete
    processedAt := none
    createdAt := 0 }

/-- An already recorded payment. -/
def dupPayment : Payment :=
  { freshPayment with id := "p0", transactionReference := "VPAY-DUP", transactionDate := 1 }

/-- A world in which the reference of `dupPayment` is already recorded in both
dedup tiers and `paidCustomer` is stored. -/
def worldDup : World :=
  { customers := [("GIG00001", paidCustomer)]
    payStore := { fast := [("VPAY-DUP", dupPayment)], durable := [dupPayment] }
    trace := [] }

/-- A resubmission of the already recorded reference. -/
def reqDup : ProcessPaymentRequest :=
  { customerID := "GIG00001"
    paymentStatus := "COMPLETE"
    transactionAmount := 10000
    transactionDate := 2
    transactionReference := "VPAY-DUP" }

/-- A PENDING notification. -/
def pendingReq : ProcessPaymentRequest := { reqDup with paymentStatus := "PENDING" }

/-- A fresh COMPLETE notification used for the conflict-retry scenario. -/
def retryReq : ProcessPaymentRequest :=
  { reqDup with transactionReference := "VPAY-RETRY", transactionDate := 7 }

/-- The customer fetched before the first persist attempt (version 5). -/
def scriptCustomerA : Customer := paidCustomer

/-- Model of `scriptCustomerA` after applying `retryReq` in memory. -/
def scriptCustomerA1 : Customer :=
  { scriptCustomerA with
    outstandingBalance := 99980000
    totalPaid := 20000
    lastPaymentDate := some 7 }

/-- The refetched customer after a concurrent commit bumped the version. -/
def scriptCustomerB : Customer := { paidCustomer with version := 6 }

/-- Model of `scriptCustomerB` after reapplying `retryReq` in memory. -/
def scriptCustomerB1 : Customer := { scriptCustomerA1 with version := 6 }

/-- A scripted environment over a program-counter state: the dedup check
misses, both conditional persists hit an optimistic-lock conflict, and the
refetch observes the concurrently bumped version — the double-conflict
schedule of the claim. -/
def scriptEnv : Env Nat :=
  { customerRepo :=
      { findByID := fun n _ =>
          if n = 1 then (.ok scriptCustomerA, 2)
          else if n = 3 then (.ok scriptCustomerB, 4)
          else (.error .customerNotFound, n + 1)
        save := fun n _ => (.error .optimisticLock, n + 1) }
    paymentRepo :=
      { existsByRef := fun n _ => (.ok false, n + 1)
        save := fun n _ => (.ok (), n + 1) }
    publisher := none }

theorem wrap64_eq_of_range (x : Int) (h1 : -(2 ^ 63) ≤ x) (h2 : x < 2 ^ 63) :
    wrap64 x = x := by
  have e63 : (2 : Int) ^ 63 = 9223372036854775808 := by norm_num
  have e64 : (2 : Int) ^ 64 = 18446744073709551616 := by norm_num
  unfold wrap64
  rw [e63] at h1 h2
  rw [e63, e64, Int.emod_eq_of_lt (by omega) (by omega)]
  omega

theorem applyPayment_pos (c : Customer) (a : Int) (d : Nat)
    (hpos : 0 < a) (hs : c.status ≠ .completed)
    (hb0 : 0 ≤ c.outstandingBalance) (hbHi : c.outstandingBalance < 2 ^ 63)
    (haHi : a < 2 ^ 63)
    (hp0 : -(2 ^ 63) ≤ c.totalPaid) (hpHi : c.totalPaid + a < 2 ^ 63) :
    applyPayment c a d = .ok
      { c with
        outstandingBalance := max 0 (c.outstandingBalance - a)
        totalPaid := c.totalPaid + a
        lastPaymentDate := some d
        status := if c.outstandingBalance ≤ a then .completed else c.status } := by
  have hw1 : wrap64 (c.outstandingBalance - a) = c.outstandingBalance - a :=
    wrap64_eq_of_range _ (by linarith) (by linarith)
  have hw2 : wrap64 (c.totalPaid + a) = c.totalPaid + a :=
    wrap64_eq_of_range _ (by linarith) (by linarith)
  unfold applyPayment
  rw [if_neg (not_le.mpr hpos), if_neg hs]
  simp only [hw1, hw2]
  by_cases hlt : c.outstandingBalance - a < 0
  · rw [if_pos hlt, if_pos rfl, if_pos (by omega)]
    congr 1
    have : max 0 (c.outstandingBalance - a) = 0 := by omega
    simp [this]
  · rw [if_neg hlt]
    by_cases hz : c.outstandingBalance - a = 0
    · rw [if_pos hz, if_pos (by omega)]
      congr 1
      have : max 0 (c.outstandingBalance - a) = 0 := by omega
      simp [this, hz]
    · rw [if_neg hz, if_neg (by omega)]
      congr 1
      have : max 0 (c.outstandingBalance - a) = c.outstandingBalance - a := by omega
      simp [this]

/-- C1: on any non-COMPLETED customer and any positive amount (all values
`int64`-representable, the addition to `TotalPaid` non-overflowing),
`ApplyPayment` succeeds, the new balance is the old balance minus the
amount clamped at zero, `TotalPaid` grows by exactly the unclamped amount,
the payment date is stamped, and the status becomes COMPLETED exactly when
the new balance is zero. -/
theorem applyPayment_success (c : Customer) (a : Int) (d : Nat)
    (hs : c.status ≠ CustomerStatus.completed) (hpos : 0 < a)
    (hb0 : 0 ≤ c.outstandingBalance) (hbHi : c.outstandingBalance < 2 ^ 63)
    (haHi : a < 2 ^ 63) (hp0 : -(2 ^ 63) ≤ c.totalPaid)
    (hpHi : c.totalPaid + a < 2 ^ 63) :
    ∃ c1, applyPayment c a d = .ok c1 ∧
      c1.outstandingBalance = max 0 (c.outstandingBalance - a) ∧
      c1.totalPaid = c.totalPaid + a ∧
      c1.lastPaymentDate = some d ∧
      (c1.status = CustomerStatus.completed ↔ c1.outstandingBalance = 0) := by
  refine ⟨_, applyPayment_pos c a d hpos hs hb0 hbHi haHi hp0 hpHi, rfl, rfl, rfl, ?_⟩
  by_cases hba : c.outstandingBalance ≤ a
  · simp only [if_pos hba]
    constructor
    · intro _; omega
    · intro _; trivial
  · simp only [if_neg hba]
    constructor
    · intro h; exact absurd h hs
    · intro h; omega

/-- C1 witness: Scenario A of the spec — the seeded customer receives a
10,000-kobo payment. -/
theorem applyPayment_success_witness :
    ∃ c1, applyPayment baseCustomer 10000 1 = .ok c1 ∧
      c1.outstandingBalance = max 0 (baseCustomer.outstandingBalance - 10000) ∧
      c1.totalPaid = baseCustomer.totalPaid + 10000 ∧
      c1.lastPaymentDate = some 1 ∧
      (c1.status = CustomerStatus.completed ↔ c1.outstandingBalance = 0) :=
  applyPayment_success baseCustomer 10000 1 (by decide) (by decide) (by decide)
    (by decide) (by decide) (by decide) (by decide)

/-- C8: `ApplyPayment` rejects every non-positive amount with
`ErrInvalidAmount`, and (for positive amounts) every COMPLETED customer
with `ErrAssetAlreadyOwned`; in both cases the customer is left entirely
unchanged. -/
theorem applyPayment_rejects (c : Customer) (a : Int) (d : Nat) :
    (a ≤ 0 → applyPayment c a d = .error .invalidAmount ∧ stepCustomer c a d = c) ∧
    (0 < a → c.status = CustomerStatus.completed →
      applyPayment c a d = .error .assetAlreadyOwned ∧ stepCustomer c a d = c) := by
  constructor
  · intro ha
    constructor <;> simp [applyPayment, stepCustomer, ha]
  · intro ha hc
    constructor <;> simp [applyPayment, stepCustomer, not_le.mpr ha, hc]

/-- C8 witness: a further payment against a fully paid customer fails with
`ErrAssetAlreadyOwned` and changes nothing. -/
theorem applyPayment_rejects_witness :
    applyPayment doneCustomer 10000 3 = Except.error .assetAlreadyOwned ∧
      stepCustomer doneCustomer 10000 3 = doneCustomer :=
  (applyPayment_rejects doneCustomer 10000 3).2 (by decide) (by decide)

/-- C10: `GetPaymentProgress` is total — a zero asset value short-circuits
to 0 instead of dividing. -/
theorem getPaymentProgress_zero_asset (c : Customer)
    (h : c.assetValue = 0) : getPaymentProgress c = 0 := by
  simp [getPaymentProgress, h]

/-- C10 witness. -/
theorem getPaymentProgress_zero_asset_witness :
    getPaymentProgress zeroAssetCustomer = 0 :=
  getPaymentProgress_zero_asset zeroAssetCustomer (by decide)

theorem sumPos_nonneg (l : List (Int × Nat)) : 0 ≤ sumPos l := by
  induction l with
  | nil => simp [sumPos]
  | cons p rest ih =>
    have : 0 ≤ max p.1 0 := le_max_right _ _
    simp only [sumPos]
    omega

theorem stepCustomer_completed (c : Customer) (a : Int) (d : Nat)
    (h : c.status = .completed) : stepCustomer c a d = c := by
  unfold stepCustomer applyPayment
  by_cases ha : a ≤ 0 <;> simp [ha, h]

theorem stepCustomer_spec (c : Customer) (a : Int) (d : Nat)
    (hInv : CustomerInv c) (haHi : a < 2 ^ 63)
    (hpHi : c.totalPaid + max a 0 < 2 ^ 63) :
    CustomerInv (stepCustomer c a d) ∧
    (stepCustomer c a d).outstandingBalance ≤ c.outstandingBalance ∧
    c.totalPaid ≤ (stepCustomer c a d).totalPaid ∧
    (stepCustomer c a d).totalPaid ≤ c.totalPaid + max a 0 := by
  obtain ⟨h1, h2, h3, h4⟩ := hInv
  have hmax : 0 ≤ max a 0 := le_max_right _ _
  by_cases ha : a ≤ 0
  · have : stepCustomer c a d = c := by
      unfold stepCustomer applyPayment; simp [ha]
    rw [this]
    exact ⟨⟨h1, h2, h3, h4⟩, le_refl _, le_refl _, by omega⟩
  · push_neg at ha
    by_cases hcs : c.status = .completed
    · rw [stepCustomer_completed c a d hcs]
      exact ⟨⟨h1, h2, h3, h4⟩, le_refl _, le_refl _, by omega⟩
    · have hamax : max a 0 = a := by omega
      have e63pos : (0 : Int) < 2 ^ 63 := by positivity
      have happ := applyPayment_pos c a d ha hcs h1 h2 haHi (by linarith) (by omega)
      have hstep : stepCustomer c a d =
          { c with
            outstandingBalance := max 0 (c.outstandingBalance - a)
            totalPaid := c.totalPaid + a
            lastPaymentDate := some d
            status := if c.outstandingBalance ≤ a then .completed else c.status } := by
        unfold stepCustomer
        rw [happ]
      rw [hstep]
      unfold CustomerInv
      dsimp only
      refine ⟨⟨by omega, by omega, by omega, ?_⟩, by omega, by omega, by omega⟩
      intro hz
      have : c.outstandingBalance ≤ a := by omega
      simp [this]

theorem applyPayments_spec (l : List (Int × Nat)) (c : Customer)
    (hInv : CustomerInv c) (hAmt : ∀ p ∈ l, p.1 < 2 ^ 63)
    (hBound : c.totalPaid + sumPos l < 2 ^ 63) :
    CustomerInv (applyPayments c l) ∧
    (applyPayments c l).outstandingBalance ≤ c.outstandingBalance ∧
    c.totalPaid ≤ (applyPayments c l).totalPaid := by
  induction l generalizing c with
  | nil => exact ⟨hInv, le_refl _, le_refl _⟩
  | cons p rest ih =>
    obtain ⟨a, d⟩ := p
    have hrest0 := sumPos_nonneg rest
    have hsum : sumPos ((a, d) :: rest) = max a 0 + sumPos rest := rfl
    have hstep := stepCustomer_spec c a d hInv (hAmt (a, d) (by simp)) (by omega)
    have hnext := ih (stepCustomer c a d) hstep.1
      (fun q hq => hAmt q (List.mem_cons_of_mem _ hq)) (by omega)
    have hchain : applyPayments c ((a, d) :: rest) =
        applyPayments (stepCustomer c a d) rest := rfl
    rw [hchain]
    exact ⟨hnext.1, le_trans hnext.2.1 hstep.2.1, le_trans hstep.2.2.1 hnext.2.2⟩

theorem applyPayments_completed (l : List (Int × Nat)) (c : Customer)
    (h : c.status = .completed) : applyPayments c l = c := by
  induction l with
  | nil => rfl
  | cons p rest ih =>
    obtain ⟨a, d⟩ := p
    have : applyPayments c ((a, d) :: rest) = applyPayments (stepCustomer c a d) rest := rfl
    rw [this, stepCustomer_completed c a d h, ih]

/-- C3: `NewCustomer` establishes the aggregate invariants; a COMPLETED
customer is absorbing under any sequence of `ApplyPayment` calls; and any
sequence of `ApplyPayment` calls (amounts `int64`-representable, the total
non-overflowing) preserves the invariants — balance non-negative and zero
only when COMPLETED — while the outstanding balance never increases and
`TotalPaid` never decreases. -/
theorem customer_invariants :
    (∀ id v t d c, newCustomer id v t d = .ok c → v < 2 ^ 63 → CustomerInv c) ∧
    (∀ (c : Customer) (l : List (Int × Nat)),
       c.status = CustomerStatus.completed → applyPayments c l = c) ∧
    (∀ (c : Customer) (l : List (Int × Nat)), CustomerInv c →
       (∀ p ∈ l, p.1 < 2 ^ 63) → c.totalPaid + sumPos l < 2 ^ 63 →
       CustomerInv (applyPayments c l) ∧
       (applyPayments c l).outstandingBalance ≤ c.outstandingBalance ∧
       c.totalPaid ≤ (applyPayments c l).totalPaid) := by
  refine ⟨?_, ?_, ?_⟩
  · intro id v t d c hnew hv
    unfold newCustomer at hnew
    by_cases hid : id = ""
    · simp [hid] at hnew
    · rw [if_neg hid] at hnew
      by_cases hval : v ≤ 0
      · simp [hval] at hnew
      · rw [if_neg hval] at hnew
        by_cases ht : t ≤ 0
        · simp [ht] at hnew
        · rw [if_neg ht] at hnew
          cases hnew
          unfold CustomerInv
          dsimp only
          refine ⟨by omega, by omega, by omega, ?_⟩
          intro h
          exact absurd h (by omega)
  · intro c l h
    exact applyPayments_completed l c h
  · intro c l hInv hAmt hBound
    exact applyPayments_spec l c hInv hAmt hBound

/-- C3 witness: Scenarios A and B chained — the seeded customer pays
10,000 and then the remaining 99,990,000 kobo. -/
theorem customer_invariants_witness :
    CustomerInv (applyPayments baseCustomer [(10000, 1), (99990000, 2)]) ∧
    (applyPayments baseCustomer [(10000, 1), (99990000, 2)]).outstandingBalance ≤
      baseCustomer.outstandingBalance ∧
    baseCustomer.totalPaid ≤
      (applyPayments baseCustomer [(10000, 1), (99990000, 2)]).totalPaid :=
  customer_invariants.2.2 baseCustomer [(10000, 1), (99990000, 2)]
    (by decide) (by decide) (by decide)

theorem findRow_cons (q : String × Customer) (rest : CustomerTable) (id : String) :
    findRow (q :: rest) id = if q.1 == id then some q.2 else findRow rest id := by
  unfold findRow
  cases h : (q.1 == id) <;> simp [List.find?, h]

theorem countP_rowMatches_zero (rest : CustomerTable) (id : String) (v : Int)
    (h : id ∉ rest.map Prod.fst) :
    rest.countP (fun p => rowMatches p id v) = 0 := by
  induction rest with
  | nil => rfl
  | cons q rest ih =>
    rw [List.map_cons, List.mem_cons] at h
    push_neg at h
    have hq : rowMatches q id v = false := by
      unfold rowMatches
      have : (q.1 == id) = false := by
        simp only [beq_eq_false_iff_ne, ne_eq]
        exact fun he => h.1 he.symm
      simp [this]
    rw [List.countP_cons, hq, ih h.2]
    simp

theorem saveCustomer_conflict_countP (t : CustomerTable) (id : String) (v : Int)
    (row : Customer) (hnodup : (t.map Prod.fst).Nodup)
    (hfind : findRow t id = some row) (hv : row.version ≠ v) :
    t.countP (fun p => rowMatches p id v) = 0 := by
  induction t with
  | nil => simp [findRow] at hfind
  | cons q rest ih =>
    rw [List.map_cons, List.nodup_cons] at hnodup
    rw [List.countP_cons]
    rw [findRow_cons] at hfind
    by_cases hq : (q.1 == id) = true
    · rw [if_pos hq] at hfind
      cases hfind
      have hm : rowMatches q id v = false := by
        unfold rowMatches
        have : (q.2.version == v) = false := by simp [hv]
        simp [this]
      have hid : q.1 = id := by simpa using hq
      rw [hm, countP_rowMatches_zero rest id v (hid ▸ hnodup.1)]
      simp
    · rw [if_neg hq] at hfind
      have hq2 : (q.1 == id) = false := by simpa using hq
      have hm : rowMatches q id v = false := by
        unfold rowMatches
        simp [hq2]
      rw [hm, ih hnodup.2 hfind]
      simp

theorem saveCustomer_match_countP (t : CustomerTable) (id : String) (v : Int)
    (row : Customer) (hfind : findRow t id = some row) (hv : row.version = v) :
    t.countP (fun p => rowMatches p id v) ≠ 0 := by
  induction t with
  | nil => simp [findRow] at hfind
  | cons q rest ih =>
    rw [findRow_cons] at hfind
    rw [List.countP_cons]
    by_cases hq : (q.1 == id) = true
    · rw [if_pos hq] at hfind
      cases hfind
      have hm : rowMatches q id v = true := by
        unfold rowMatches
        simp [hq, hv]
      rw [hm]
      simp
    · rw [if_neg hq] at hfind
      have hrest := ih hfind
      cases hm : rowMatches q id v
      · simpa using hrest
      · simp

theorem findRow_after_update (t : CustomerTable) (c row : Customer)
    (hfind : findRow t c.id = some row) (hv : row.version = c.version) :
    findRow (t.map fun p =>
        if rowMatches p c.id c.version then (p.1, applyUpdate p.2 c) else p) c.id
      = some (applyUpdate row c) := by
  induction t with
  | nil => simp [findRow] at hfind
  | cons q rest ih =>
    rw [findRow_cons] at hfind
    rw [List.map_cons]
    by_cases hq : (q.1 == c.id) = true
    · rw [if_pos hq] at hfind
      cases hfind
      have hm : rowMatches q c.id c.version = true := by
        unfold rowMatches
        simp [hq, hv]
      simp only [hm, if_true]
      rw [findRow_cons, if_pos hq]
    · rw [if_neg hq] at hfind
      have hq2 : (q.1 == c.id) = false := by simpa using hq
      have hm : rowMatches q c.id c.version = false := by
        unfold rowMatches
        simp [hq2]
      simp only [hm, Bool.false_eq_true, if_false]
      rw [findRow_cons, if_neg hq]
      exact ih hfind

/-- C2: the conditional save of `GORMCustomerRepository.Save` against a
table whose stored row for the id of the customer is `row` (primary-key
uniqueness assumed): a stale expected version always fails with
`ErrOptimisticLock` leaving the table untouched, and a matching expected
version always succeeds with the stored version incremented by exactly
one. -/
theorem saveCustomer_optimistic (t : CustomerTable) (c row : Customer)
    (hnodup : (t.map Prod.fst).Nodup) (hfind : findRow t c.id = some row) :
    (row.version ≠ c.version →
       saveCustomer t c = (.error .optimisticLock, t)) ∧
    (row.version = c.version →
       (saveCustomer t c).1 = .ok { c with version := c.version + 1 } ∧
       findRow (saveCustomer t c).2 c.id = some (applyUpdate row c) ∧
       (applyUpdate row c).version = row.version + 1) := by
  constructor
  · intro hv
    have h0 := saveCustomer_conflict_countP t c.id c.version row hnodup hfind hv
    unfold saveCustomer
    rw [if_pos h0]
  · intro hv
    have h1 := saveCustomer_match_countP t c.id c.version row hfind hv
    have hsave : saveCustomer t c =
        (.ok { c with version := c.version + 1 },
         t.map fun p =>
           if rowMatches p c.id c.version then (p.1, applyUpdate p.2 c) else p) := by
      unfold saveCustomer
      rw [if_neg h1]
    rw [hsave]
    exact ⟨rfl, findRow_after_update t c row hfind hv, rfl⟩

/-- C2 witness: the one-row table at version 5 — a save expecting version 4
conflicts and leaves the row untouched; a save expecting version 5 commits
and stores version 6. -/
theorem saveCustomer_optimistic_witness :
    saveCustomer tableW staleCustomer = (.error .optimisticLock, tableW) ∧
    (saveCustomer tableW saveReqCustomer).1 =
      .ok { saveReqCustomer with version := saveReqCustomer.version + 1 } ∧
    findRow (saveCustomer tableW saveReqCustomer).2 saveReqCustomer.id =
      some (applyUpdate paidCustomer saveReqCustomer) := by
  constructor
  · exact (saveCustomer_optimistic tableW staleCustomer paidCustomer
      (by decide) (by decide)).1 (by decide)
  · have h := (saveCustomer_optimistic tableW saveReqCustomer paidCustomer
      (by decide) (by decide)).2 (by decide)
    exact ⟨h.1, h.2.1⟩

/-- C4 counterexample: on a winning save of a fresh reference,
`GORMPaymentRepository.Save` succeeds yet performs no insert-if-absent on
the fast tier — the reference is still absent from the fast tier
afterwards, whereas the gate of the spec (`specGateSave`, transcribed from the
words of the claim) would have installed it there. -/
theorem gormSavePayment_no_fast_insert :
    (gormSavePayment emptyPayStore freshPayment).1 = .ok () ∧
    (gormSavePayment emptyPayStore freshPayment).2.fast = [] ∧
    (specGateSave emptyPayStore freshPayment).2.fast =
      [("VPAY-NEW", freshPayment)] := by
  decide

/-- C4 amended: the save of the Dedup Gate performs a read-only existence check
on the fast tier — returning DuplicateTransaction immediately on a hit,
without writing to the fast tier — and only on a fast-tier miss attempts
the durable insert, where a uniqueness-constraint violation also yields
DuplicateTransaction; on success only the durable tier gains the record. -/
theorem gormSavePayment_spec (st : PayStore) (p : Payment) :
    (fastHasRef st.fast p.transactionReference = true →
       gormSavePayment st p = (.error .duplicateTransaction, st)) ∧
    (fastHasRef st.fast p.transactionReference = false →
       durableHasRef st.durable p.transactionReference = true →
       gormSavePayment st p = (.error .duplicateTransaction, st)) ∧
    (fastHasRef st.fast p.transactionReference = false →
       durableHasRef st.durable p.transactionReference = false →
       gormSavePayment st p = (.ok (), { st with durable := st.durable ++ [p] })) := by
  refine ⟨?_, ?_, ?_⟩
  · intro h1
    unfold gormSavePayment
    rw [if_pos h1]
  · intro h1 h2
    unfold gormSavePayment
    rw [if_neg (by simp [h1]), if_pos h2]
  · intro h1 h2
    unfold gormSavePayment
    rw [if_neg (by simp [h1]), if_neg (by simp [h2])]

/-- C4 witness: saving a fresh reference against the empty dedup state
commits to the durable tier only. -/
theorem gormSavePayment_spec_witness :
    gormSavePayment emptyPayStore freshPayment =
      (.ok (), { emptyPayStore with durable := emptyPayStore.durable ++ [freshPayment] }) :=
  (gormSavePayment_spec emptyPayStore freshPayment).2.2 (by decide) (by decide)

/-- C5: when the submitted reference already exists in the Dedup Gate and
the customer row is present, `ProcessPayment` returns success with message
"duplicate transaction - already processed" carrying the stored current
current balance figures, and the stores are untouched — the world changes
only by the ghost trace of the two reads (no save, no payment record, no
event). -/
theorem processPayment_duplicate (w : World) (req : ProcessPaymentRequest)
    (now : Nat) (c : Customer)
    (hst : req.paymentStatus = "COMPLETE")
    (hex : gormExistsByRef w.payStore req.transactionReference = true)
    (hc : findRow w.customers req.customerID = some c) :
    processPayment worldEnv w req now =
      (.ok { success := true
             message := "duplicate transaction - already processed"
             customerID := c.id
             outstandingBalance := c.outstandingBalance
             totalPaid := c.totalPaid
             paymentProgress := getPaymentProgress c
             isFullyPaid := isFullyPaid c },
       { w with trace := w.trace ++
           [.opExists req.transactionReference true,
            .opFindCustomer req.customerID true] }) := by
  have hx : worldEnv.paymentRepo.existsByRef w req.transactionReference =
      (.ok true, { w with trace := w.trace ++ [.opExists req.transactionReference true] }) := by
    simp [worldEnv, worldPaymentRepo, hex]
  have hf : worldEnv.customerRepo.findByID
      { w with trace := w.trace ++ [.opExists req.transactionReference true] }
      req.customerID =
      (.ok c, { w with trace := w.trace ++
          [.opExists req.transactionReference true, .opFindCustomer req.customerID true] }) := by
    simp [worldEnv, worldCustomerRepo, findCustomer, hc]
  unfold processPayment
  rw [if_neg (by simp [hst])]
  simp only [hx, hf, customerResponse]

/-- C5 witness: resubmitting the recorded reference `VPAY-DUP`. -/
theorem processPayment_duplicate_witness :
    processPayment worldEnv worldDup reqDup 9 =
      (.ok (customerResponse "duplicate transaction - already processed" paidCustomer),
       { worldDup with trace := [.opExists "VPAY-DUP" true, .opFindCustomer "GIG00001" true] }) := by
  have h := processPayment_duplicate worldDup reqDup 9 paidCustomer rfl (by decide) (by decide)
  rw [h]
  rfl

/-- C7: a notification whose status is not COMPLETE yields
`{success:false}` and the world is returned exactly as it was — every
modelled store operation appends to the ghost trace, so an unchanged world
means no dedup check, no customer read or write, no payment record and no
event. -/
theorem processPayment_not_complete (w : World) (req : ProcessPaymentRequest)
    (now : Nat) (h : req.paymentStatus ≠ "COMPLETE") :
    processPayment worldEnv w req now =
      (.ok { success := false
             message := "payment status is " ++ req.paymentStatus ++ ", not COMPLETE" }, w) := by
  unfold processPayment
  rw [if_pos h]

/-- C7 witness: a PENDING submission. -/
theorem processPayment_not_complete_witness :
    processPayment worldEnv worldDup pendingReq 9 =
      (.ok { success := false
             message := "payment status is PENDING, not COMPLETE" }, worldDup) := by
  have h := processPayment_not_complete worldDup pendingReq 9 (by decide)
  rw [h]
  rfl

/-- C6: over any store environment, when the dedup check misses and the
first conditional persist hits an optimistic-lock conflict, the workflow
performs exactly one retry — refetch, reapply, persist again; if that
single retry conflicts (or fails otherwise) the error is surfaced to the
caller with no further attempt, and if it succeeds the workflow proceeds
to the payment-recording phase. -/
theorem processPayment_conflict_retry {S : Type} (E : Env S) (s0 : S)
    (req : ProcessPaymentRequest) (now : Nat) (c0 c1 c2 c3 : Customer)
    (s1 s2 s3 s4 : S)
    (hst : req.paymentStatus = "COMPLETE")
    (hex : E.paymentRepo.existsByRef s0 req.transactionReference = (.ok false, s1))
    (hfind : E.customerRepo.findByID s1 req.customerID = (.ok c0, s2))
    (happ : applyPayment c0 req.transactionAmount req.transactionDate = .ok c1)
    (hsave1 : E.customerRepo.save s2 c1 = (.error .optimisticLock, s3))
    (hrefetch : E.customerRepo.findByID s3 req.customerID = (.ok c2, s4))
    (happ2 : applyPayment c2 req.transactionAmount req.transactionDate = .ok c3) :
    (∀ e s5, E.customerRepo.save s4 c3 = (.error e, s5) →
       processPayment E s0 req now = (.error (.saveCustomerFailed e), s5)) ∧
    (∀ c4 s5, E.customerRepo.save s4 c3 = (.ok c4, s5) →
       processPayment E s0 req now = finishPayment E s5 c4 req now) := by
  unfold processPayment
  rw [if_neg (by simp [hst])]
  simp only [hex, hfind, happ, hsave1, hrefetch, happ2]
  constructor
  · intro e s5 hsave2
    simp only [hsave2]
  · intro c4 s5 hsave2
    simp only [hsave2]

/-- C6 witness: the scripted double-conflict schedule — the second
conflict is returned as the save failure, with no third attempt. -/
theorem processPayment_conflict_retry_witness :
    processPayment scriptEnv 0 retryReq 9 =
      (.error (.saveCustomerFailed .optimisticLock), 5) := by
  have h := processPayment_conflict_retry scriptEnv 0 retryReq 9
    scriptCustomerA scriptCustomerA1 scriptCustomerB scriptCustomerB1 1 2 3 4
    rfl rfl rfl (by decide) rfl rfl (by decide)
  exact h.1 .optimisticLock 5 rfl

/-- C9: the boundary conversion is not exact — for the accepted decimal
amount string "4.56" the float64 round trip `int64(ParseFloat(s) * 100)`
yields 455 kobo although the exact minor-unit value of the string is 456
kobo. -/
theorem getAmountInKobo_divergence :
    getAmountInKobo 456 100 = 455 ∧ ((456 : ℚ) / 100) * 100 = 456 := by
  constructor
  · decide
  · norm_num

end Gigmile
